import Mathlib

/-!
Verification of the logging/error-normalization core of the `legion` module
(`src/legion/legion.py`, the current packaged revision of the repository; the
flat-layout `legion.py` at the repository root is an earlier revision of the
same module and is noted where the two differ).

Python strings are modelled as `List Char` (Python strings are sequences of
code points) in the formatter/indentation pipeline, and as Lean `String` in
the error-normalizer, where only concrete evaluation is needed.  Fallible
Python operations (dict subscripts, string indexing, `raise`) are modelled
with `Except`; machine behaviour that the module merely inherits from the
Python runtime (e.g. `dict.__getitem__` raising `KeyError`) is modelled by
explicit total functions into `Except`.
-/

namespace Legion

/-! ### Python string primitives -/

/-- Newline character, the line separator used by `str.split('\n')` /
`'\n'.join` in the source. -/
def nl : Char := '\n'

/-- Python `str.isspace` / whitespace stripped by `str.rstrip()` with no
arguments, restricted to the ASCII whitespace characters (the only ones the
module's own string constants contain). -/
def pyIsSpace (c : Char) : Bool :=
  c == ' ' || c == '\t' || c == '\n' || c == '\r' || c == '\x0b' || c == '\x0c'

/-- Python `s.rstrip()`: remove the maximal run of trailing whitespace. -/
def rstrip (l : List Char) : List Char :=
  (l.reverse.dropWhile pyIsSpace).reverse

/-- A Python string is whitespace-only when all of its characters are
whitespace (for nonempty strings this is `str.isspace()`). -/
def isWhitespaceOnly (l : List Char) : Bool := l.all pyIsSpace

/-- Python `s.rfind(pat)` scanned downwards from position `i`: the largest
starting index `≤ i` where `pat` occurs in `s`, if any. -/
def rfindFrom (s pat : List Char) : Nat → Option Nat
  | 0 => if pat.isPrefixOf s then some 0 else none
  | i + 1 => if pat.isPrefixOf (s.drop (i + 1)) then some (i + 1) else rfindFrom s pat i

/-- Python `s.rfind(pat)`: highest index where `pat` occurs in `s`, `-1` when
it does not occur (`s.rfind('') = len(s)`). -/
def pyRFind (s pat : List Char) : Int :=
  match rfindFrom s pat s.length with
  | some i => (i : Int)
  | none => -1

/-- Python slice `s[0:n]` (negative `n` counts from the end, clamped). -/
def pySlice0 (s : List Char) (n : Int) : List Char :=
  if 0 ≤ n then s.take n.toNat else s.take (s.length - (-n).toNat)

/-- Python `str * int`: `n` copies of the character, the empty string for
non-positive `n` (as in `' ' * n`). -/
def strMul (c : Char) (n : Int) : List Char := List.replicate n.toNat c

/-! ### The indentation state of `_CustomLogger` -/

/-- Mutable indentation state of `_CustomLogger` (`legion.py` lines 357-360):
`self.indentlevel` (a Python `int`) and the cached prefix string
`self.indentation`. -/
structure LoggerState where
  indentlevel : Int
  indentation : List Char
  deriving Repr, DecidableEq

/-- State after `_CustomLogger.__init__`: level `0`, empty prefix. -/
def initLogger : LoggerState := ⟨0, []⟩

/-- The state whose cached prefix agrees with its level, as maintained by
`_set_indentlevel` (`self.indentation = self.INDENTCHAR * self.indentlevel`). -/
def mkIndentState (level : Int) : LoggerState := ⟨level, strMul ' ' level⟩

/-- The argument of `_set_indentlevel`: a Python string or a Python int. -/
inductive IndentArg where
  | str (s : List Char)
  | int (n : Int)
  deriving Repr, DecidableEq

/-- `_CustomLogger.INCREASE_INDENT_SYMBOL` (the string `"+"`). -/
def INCREASE_INDENT_SYMBOL : List Char := ['+']

/-- `_CustomLogger.DECREASE_INDENT_SYMBOL` (the string `"-"`). -/
def DECREASE_INDENT_SYMBOL : List Char := ['-']

/-- `_CustomLogger.INDENTCHAR` (a single space). -/
def INDENTCHAR : Char := ' '

/-- The `_Messages.BAD_INDENTLEVEL` text raised with `ValueError`. -/
def BAD_INDENTLEVEL : String := "Indentation level must be a non-negative integer."

/-- `_CustomLogger._set_indentlevel` (`legion.py` lines 368-388): `"+"`
increments, `"-"` decrements clamped at `0` via `max(0, level - 1)`, a
non-negative int is assigned, anything else raises `ValueError` before any
state is mutated; on success the cached `indentation` prefix is recomputed as
`INDENTCHAR * indentlevel`.  The raising path is the `Except.error` result,
which carries no new state (the caller's state is unchanged). -/
def set_indentlevel (level : IndentArg) (st : LoggerState) : Except String LoggerState :=
  match level with
  | .str s =>
    if s = INCREASE_INDENT_SYMBOL then
      let lvl := st.indentlevel + 1
      .ok ⟨lvl, strMul INDENTCHAR lvl⟩
    else if s = DECREASE_INDENT_SYMBOL then
      let lvl := max 0 (st.indentlevel - 1)
      .ok ⟨lvl, strMul INDENTCHAR lvl⟩
    else .error BAD_INDENTLEVEL
  | .int n =>
    if 0 ≤ n then .ok ⟨n, strMul INDENTCHAR n⟩ else .error BAD_INDENTLEVEL

/-- `_CustomLogger.set_indent(level)` (lines 390-392). -/
def set_indent (n : Int) (st : LoggerState) : Except String LoggerState :=
  set_indentlevel (.int n) st

/-- `_CustomLogger.indent()` (lines 394-396). -/
def indent (st : LoggerState) : Except String LoggerState :=
  set_indentlevel (.str INCREASE_INDENT_SYMBOL) st

/-- `_CustomLogger.dedent()` (lines 398-400). -/
def dedent (st : LoggerState) : Except String LoggerState :=
  set_indentlevel (.str DECREASE_INDENT_SYMBOL) st

/-- A relative indentation call, as in the spec's `indent()`/`dedent()`
sequences. -/
inductive RelOp where
  | indentOp
  | dedentOp
  deriving Repr, DecidableEq

/-- Run one relative call; an exception would leave the state unchanged
(`indent`/`dedent` in fact never raise). -/
def applyRelOp (op : RelOp) (st : LoggerState) : LoggerState :=
  match op with
  | .indentOp => match indent st with | .ok st' => st' | .error _ => st
  | .dedentOp => match dedent st with | .ok st' => st' | .error _ => st

/-- Run a sequence of `indent()`/`dedent()` calls. -/
def applyRelOps (ops : List RelOp) (st : LoggerState) : LoggerState :=
  ops.foldl (fun s op => applyRelOp op s) st

/-! ### The record/formatter pipeline -/

/-- `_CustomLogger.makeRecord` (lines 362-366): the record's message becomes
`'\n'.join(f'{self.indentation}{line}'.rstrip() for line in msg.split('\n'))`. -/
def makeRecord (st : LoggerState) (msg : List Char) : List Char :=
  [nl].intercalate ((msg.splitOn nl).map fun line => rstrip (st.indentation ++ line))

/-- `_CustomFormatter.format` (lines 424-430).  `super().format(record)`
instantiates the destination's template, in which `{message}` is the final
placeholder for all three templates of the module (`DEBUGFILE_FORMAT`,
`LOGFILE_FORMAT`, `CONSOLE_FORMAT`), so it is modelled as
`preambleTemplate ++ message`.  The code then recovers the preamble as
`formatted[0:formatted.rfind(record.message)]` and re-emits it per line. -/
def formatRecord (preambleTemplate message : List Char) : List Char :=
  let formatted := preambleTemplate ++ message
  let preamble := pySlice0 formatted (pyRFind formatted message)
  [nl].intercalate ((message.splitOn nl).map fun line => rstrip (preamble ++ line))

/-- Number of physical output lines of an emitted string (one more than the
number of embedded newlines, as produced by writing it plus a terminator). -/
def outputLineCount (s : List Char) : Nat := (s.splitOn nl).length

/-! ### Library lemmas about the string primitives -/

theorem isPrefixOf_length_le {l₁ l₂ : List Char} (h : l₁.isPrefixOf l₂ = true) :
    l₁.length ≤ l₂.length :=
  (List.isPrefixOf_iff_prefix.mp h).length_le

theorem rfindFrom_append (P m : List Char) :
    ∀ k, k ≤ m.length → rfindFrom (P ++ m) m (P.length + k) = some P.length := by
  intro k
  induction k with
  | zero =>
    intro _
    cases h : P.length with
    | zero =>
      have hP : P = [] := List.eq_nil_of_length_eq_zero h
      subst hP
      simp [rfindFrom, List.isPrefixOf_iff_prefix]
    | succ j =>
      have hdrop : (P ++ m).drop (j + 1) = m := by
        rw [← h]
        exact List.drop_left P m
      simp [rfindFrom, h, hdrop, List.isPrefixOf_iff_prefix]
  | succ k ih =>
    intro hk
    have hm : 1 ≤ m.length := le_trans (Nat.succ_le_succ (Nat.zero_le k)) hk
    have hdrop : (P ++ m).drop (P.length + (k + 1)) = m.drop (k + 1) :=
      List.drop_append (k + 1)
    have hnot : m.isPrefixOf ((P ++ m).drop (P.length + (k + 1))) = false := by
      rw [hdrop]
      by_contra hcon
      have : m.isPrefixOf (m.drop (k + 1)) = true := by
        revert hcon
        cases m.isPrefixOf (m.drop (k + 1)) <;> simp
      have hlen := isPrefixOf_length_le this
      rw [List.length_drop] at hlen
      omega
    have : P.length + (k + 1) = (P.length + k) + 1 := by omega
    rw [this]
    rw [show rfindFrom (P ++ m) m ((P.length + k) + 1)
        = if m.isPrefixOf ((P ++ m).drop ((P.length + k) + 1)) then some ((P.length + k) + 1)
          else rfindFrom (P ++ m) m (P.length + k) from rfl]
    rw [← this, hnot]
    simp only [Bool.false_eq_true, if_false]
    exact ih (Nat.le_of_succ_le hk)

theorem pyRFind_append (P m : List Char) : pyRFind (P ++ m) m = (P.length : Int) := by
  unfold pyRFind
  have h : (P ++ m).length = P.length + m.length := List.length_append P m
  rw [h, rfindFrom_append P m m.length (Nat.le_refl _)]

theorem preamble_of_append (P m : List Char) :
    pySlice0 (P ++ m) (pyRFind (P ++ m) m) = P := by
  rw [pyRFind_append]
  simp [pySlice0, List.take_left]

theorem rstrip_append_allspace {w : List Char} (l : List Char)
    (h : ∀ x ∈ w, pyIsSpace x = true) : rstrip (l ++ w) = rstrip l := by
  unfold rstrip
  rw [List.reverse_append]
  congr 1
  rw [List.dropWhile_append]
  have hw : w.reverse.dropWhile pyIsSpace = [] := by
    rw [List.dropWhile_eq_nil_iff]
    intro x hx
    exact h x (List.mem_reverse.mp hx)
  simp [hw]

theorem rstrip_allspace {w : List Char} (h : ∀ x ∈ w, pyIsSpace x = true) :
    rstrip w = [] := by
  have := rstrip_append_allspace (w := w) [] h
  simpa [rstrip] using this

theorem rstrip_decomposition (l : List Char) :
    l = rstrip l ++ (l.reverse.takeWhile pyIsSpace).reverse := by
  unfold rstrip
  rw [← List.reverse_append, List.takeWhile_append_dropWhile, List.reverse_reverse]

theorem rstrip_append_rstrip (a b : List Char) :
    rstrip (a ++ rstrip b) = rstrip (a ++ b) := by
  conv_rhs => rw [rstrip_decomposition b]
  rw [← List.append_assoc]
  rw [rstrip_append_allspace (a ++ rstrip b)]
  intro x hx
  exact List.mem_takeWhile_imp (List.mem_reverse.mp hx)

theorem mem_of_mem_rstrip {x : Char} {l : List Char} (h : x ∈ rstrip l) : x ∈ l := by
  unfold rstrip at h
  have := (List.dropWhile_sublist (l := l.reverse) (p := pyIsSpace)).mem
      (List.mem_reverse.mp h)
  exact List.mem_reverse.mp this

theorem splitOn_ne_nil (c : Char) (l : List Char) : l.splitOn c ≠ [] :=
  List.splitOnP_ne_nil _ l

theorem mem_splitOnP_not (p : Char → Bool) :
    ∀ (l : List Char), ∀ piece ∈ l.splitOnP p, ∀ x ∈ piece, p x = false := by
  intro l
  induction l with
  | nil =>
    intro piece hp x hx
    simp only [List.splitOnP_nil, List.mem_singleton] at hp
    subst hp
    exact absurd hx (List.not_mem_nil x)
  | cons hd tl ih =>
    intro piece hp x hx
    rw [List.splitOnP_cons] at hp
    by_cases h : p hd
    · rw [if_pos h] at hp
      rcases List.mem_cons.mp hp with h1 | h1
      · subst h1; exact absurd hx (List.not_mem_nil x)
      · exact ih piece h1 x hx
    · rw [if_neg h] at hp
      obtain ⟨a, rest, hsplit⟩ : ∃ a rest, tl.splitOnP p = a :: rest := by
        cases htl : tl.splitOnP p with
        | nil => exact absurd htl (List.splitOnP_ne_nil p tl)
        | cons a rest => exact ⟨a, rest, rfl⟩
      rw [hsplit] at hp
      simp only [List.modifyHead, List.mem_cons] at hp
      rcases hp with h1 | h1
      · subst h1
        rcases List.mem_cons.mp hx with h2 | h2
        · subst h2
          exact Bool.not_eq_true _ ▸ (by simpa using h)
        · exact ih a (hsplit ▸ List.mem_cons_self a rest) x h2
      · exact ih piece (hsplit ▸ List.mem_cons.mpr (Or.inr h1)) x hx

theorem not_mem_of_mem_splitOn {c : Char} {l piece : List Char}
    (h : piece ∈ l.splitOn c) : c ∉ piece := by
  intro hc
  have := mem_splitOnP_not (· == c) l piece h c hc
  simp at this

theorem intercalate_single (x : List Char) : [nl].intercalate [x] = x := by
  simp [List.intercalate]

/-! ### Composition of `makeRecord` with `_CustomFormatter.format` -/

theorem splitOn_makeRecord (st : LoggerState) (msg : List Char)
    (hind : nl ∉ st.indentation) :
    (makeRecord st msg).splitOn nl
      = (msg.splitOn nl).map fun line => rstrip (st.indentation ++ line) := by
  unfold makeRecord
  refine List.splitOn_intercalate _ nl ?_ ?_
  · intro l hl
    obtain ⟨piece, hpiece, hmap⟩ := List.mem_map.mp hl
    subst hmap
    intro hmem
    rcases List.mem_append.mp (mem_of_mem_rstrip hmem) with h | h
    · exact hind h
    · exact not_mem_of_mem_splitOn hpiece h
  · intro hcon
    exact splitOn_ne_nil nl msg (List.map_eq_nil_iff.mp hcon)

theorem formatRecord_makeRecord (P : List Char) (st : LoggerState) (msg : List Char)
    (hind : nl ∉ st.indentation) :
    formatRecord P (makeRecord st msg)
      = [nl].intercalate ((msg.splitOn nl).map fun line =>
          rstrip (P ++ st.indentation ++ line)) := by
  show [nl].intercalate (((makeRecord st msg).splitOn nl).map fun line =>
      rstrip (pySlice0 (P ++ makeRecord st msg)
        (pyRFind (P ++ makeRecord st msg) (makeRecord st msg)) ++ line)) = _
  rw [preamble_of_append, splitOn_makeRecord st msg hind, List.map_map]
  congr 1
  refine List.map_congr_left fun line _ => ?_
  show rstrip (P ++ rstrip (st.indentation ++ line)) = rstrip (P ++ st.indentation ++ line)
  rw [rstrip_append_rstrip P (st.indentation ++ line), List.append_assoc]

theorem nl_not_mem_strMul (level : Int) : nl ∉ strMul INDENTCHAR level := by
  intro h
  have := List.eq_of_mem_replicate h
  exact absurd this (by decide)

/-- C5.  For every message, every per-destination preamble and every indent
level, the formatter renders one output line per physical line of the message:
each output line is the preamble, then `INDENTCHAR` repeated indent-level
times, then the line's content, with trailing whitespace stripped; in
particular logging `"a\nb\nc"` at level 2 through the console template (empty
preamble) yields the three lines `"  a"`, `"  b"`, `"  c"`. -/
theorem C5_multiline_fidelity :
    (∀ (P msg : List Char) (level : Int),
      formatRecord P (makeRecord (mkIndentState level) msg)
        = [nl].intercalate ((msg.splitOn nl).map fun line =>
            rstrip (P ++ strMul INDENTCHAR level ++ line)))
    ∧ formatRecord [] (makeRecord (mkIndentState 2) "a\nb\nc".toList)
        = "  a\n  b\n  c".toList := by
  constructor
  · intro P msg level
    exact formatRecord_makeRecord P (mkIndentState level) msg (nl_not_mem_strMul level)
  · decide

/-- C4, counterexample.  The message `"\n"` is whitespace-only, yet at indent
level 0 with the console template the formatter emits the two-line output
`"\n"` (two empty physical lines), not exactly one output line. -/
theorem C4_blank_counterexample :
    isWhitespaceOnly [nl] = true
    ∧ formatRecord [] (makeRecord initLogger [nl]) = [nl]
    ∧ outputLineCount (formatRecord [] (makeRecord initLogger [nl])) = 2 := by
  decide

/-- C4, amended.  Logging an empty message, or a whitespace-only message that
contains no newline, produces the bare preamble with trailing whitespace
trimmed and no indent prefix applied, at every indent level; since the
destination preambles contain no newline, that is exactly one output line. -/
theorem C4_blank_collapse_amended (P msg : List Char) (level : Int)
    (hmsg : msg = [] ∨ (isWhitespaceOnly msg = true ∧ nl ∉ msg)) :
    formatRecord P (makeRecord (mkIndentState level) msg) = rstrip P
    ∧ (nl ∉ P → outputLineCount (formatRecord P (makeRecord (mkIndentState level) msg)) = 1) := by
  have hall : ∀ x ∈ strMul INDENTCHAR level ++ msg, pyIsSpace x = true := by
    intro x hx
    rcases List.mem_append.mp hx with h | h
    · rw [List.eq_of_mem_replicate h]; decide
    · rcases hmsg with h1 | h1
      · subst h1; exact absurd h (List.not_mem_nil x)
      · exact List.all_eq_true.mp h1.1 x h
  have hsplit : msg.splitOn nl = [msg] := by
    rcases hmsg with h1 | h1
    · subst h1; rfl
    · refine List.splitOnP_eq_single _ _ fun x hx hbeq => ?_
      exact h1.2 (beq_iff_eq.mp hbeq ▸ hx)
  have hmain : formatRecord P (makeRecord (mkIndentState level) msg) = rstrip P := by
    rw [formatRecord_makeRecord P (mkIndentState level) msg (nl_not_mem_strMul level), hsplit]
    show [nl].intercalate [rstrip (P ++ strMul INDENTCHAR level ++ msg)] = rstrip P
    rw [intercalate_single, List.append_assoc]
    exact rstrip_append_allspace P hall
  refine ⟨hmain, fun hP => ?_⟩
  rw [hmain]
  unfold outputLineCount
  have hone : (rstrip P).splitOn nl = [rstrip P] := by
    refine List.splitOnP_eq_single _ _ fun x hx hbeq => ?_
    exact hP (beq_iff_eq.mp hbeq ▸ mem_of_mem_rstrip hx)
  rw [hone]
  rfl

/-- C4, witness for the amended statement at preamble `"PRE"`, message `" "`,
indent level 2. -/
theorem C4_blank_collapse_amended_witness :
    formatRecord ('P' :: 'R' :: ['E']) (makeRecord (mkIndentState 2) [' '])
        = rstrip ('P' :: 'R' :: ['E'])
    ∧ outputLineCount (formatRecord ('P' :: 'R' :: ['E']) (makeRecord (mkIndentState 2) [' '])) = 1 :=
  ⟨(C4_blank_collapse_amended ('P' :: 'R' :: ['E']) [' '] 2 (Or.inr (by decide))).1,
   (C4_blank_collapse_amended ('P' :: 'R' :: ['E']) [' '] 2 (Or.inr (by decide))).2 (by decide)⟩

/-! ### Indentation claims -/

theorem indent_eq (st : LoggerState) :
    indent st = Except.ok ⟨st.indentlevel + 1, strMul INDENTCHAR (st.indentlevel + 1)⟩ := rfl

theorem dedent_eq (st : LoggerState) :
    dedent st = Except.ok
      ⟨max 0 (st.indentlevel - 1), strMul INDENTCHAR (max 0 (st.indentlevel - 1))⟩ := rfl

theorem applyRelOps_nonneg (ops : List RelOp) :
    ∀ st : LoggerState, 0 ≤ st.indentlevel → 0 ≤ (applyRelOps ops st).indentlevel := by
  induction ops with
  | nil => intro st h; exact h
  | cons op rest ih =>
    intro st h
    refine ih (applyRelOp op st) ?_
    cases op with
    | indentOp =>
      have harl : (applyRelOp RelOp.indentOp st).indentlevel = st.indentlevel + 1 := rfl
      omega
    | dedentOp =>
      have harl : (applyRelOp RelOp.dedentOp st).indentlevel
          = max 0 (st.indentlevel - 1) := rfl
      rw [harl]
      exact le_max_left 0 _

/-- C1.  Starting at level 0, no sequence of `indent()`/`dedent()` calls can
make the indent level negative; `dedent()` at level 0 returns normally and
leaves the state at level 0 (clamping via `max(0, level - 1)`); and
`dedent(); dedent(); indent()` ends at level 1. -/
theorem C1_indent_nonneg :
    (∀ ops : List RelOp, 0 ≤ (applyRelOps ops initLogger).indentlevel)
    ∧ (∀ st : LoggerState, st.indentlevel = 0 → dedent st = Except.ok initLogger)
    ∧ (applyRelOps [RelOp.dedentOp, RelOp.dedentOp, RelOp.indentOp] initLogger).indentlevel = 1 := by
  refine ⟨fun ops => applyRelOps_nonneg ops initLogger (by decide), fun st h => ?_, by decide⟩
  rw [dedent_eq, h]
  rfl

/-- C1, witness: `dedent()` on the freshly initialized logger stays at the
initial state. -/
theorem C1_indent_nonneg_witness : dedent initLogger = Except.ok initLogger :=
  C1_indent_nonneg.2.1 initLogger rfl

/-- C7.  `set_indent(n)` sets the level to exactly `n` (recomputing the cached
prefix) for every `n ≥ 0`, and for every `n < 0` it raises `ValueError` with
the invalid-argument message, synchronously and before any state mutation (the
error branch of `_set_indentlevel` is taken before the assignments), so the
caller's state is unchanged and nothing is logged. -/
theorem C7_set_indent (n : Int) (st : LoggerState) :
    (0 ≤ n → set_indent n st = Except.ok ⟨n, strMul INDENTCHAR n⟩)
    ∧ (n < 0 → set_indent n st = Except.error BAD_INDENTLEVEL) := by
  constructor
  · intro h
    show (if 0 ≤ n then (Except.ok ⟨n, strMul INDENTCHAR n⟩ : Except String LoggerState)
        else Except.error BAD_INDENTLEVEL) = Except.ok ⟨n, strMul INDENTCHAR n⟩
    rw [if_pos h]
  · intro h
    show (if 0 ≤ n then (Except.ok ⟨n, strMul INDENTCHAR n⟩ : Except String LoggerState)
        else Except.error BAD_INDENTLEVEL) = Except.error BAD_INDENTLEVEL
    rw [if_neg (by omega)]

/-- C7, witness at `n = 3` and `n = -1`. -/
theorem C7_set_indent_witness :
    set_indent 3 initLogger = Except.ok ⟨3, strMul INDENTCHAR 3⟩
    ∧ set_indent (-1) initLogger = Except.error BAD_INDENTLEVEL :=
  ⟨(C7_set_indent 3 initLogger).1 (by decide), (C7_set_indent (-1) initLogger).2 (by decide)⟩

/-- The cached-prefix invariant of `_CustomLogger`: the `indentation` field is
`INDENTCHAR * indentlevel`. -/
def IndentInv (st : LoggerState) : Prop :=
  st.indentation = strMul INDENTCHAR st.indentlevel

/-- C10.  The invariant `indentation = INDENTCHAR * indentlevel` holds after
construction, is (re)established by every successful `_set_indentlevel` call
(and a failed call raises before mutating, leaving the previous state), and
under it every created record prefixes each message line with exactly
indent-level copies of the indent character before trailing-whitespace
trimming. -/
theorem C10_indentation_cache :
    IndentInv initLogger
    ∧ (∀ (arg : IndentArg) (st st' : LoggerState),
        set_indentlevel arg st = Except.ok st' → IndentInv st')
    ∧ (∀ (st : LoggerState) (msg : List Char), IndentInv st →
        makeRecord st msg = [nl].intercalate ((msg.splitOn nl).map fun line =>
          rstrip (strMul INDENTCHAR st.indentlevel ++ line))) := by
  refine ⟨rfl, ?_, ?_⟩
  · intro arg st st' h
    cases arg with
    | str s =>
      by_cases h1 : s = INCREASE_INDENT_SYMBOL
      · subst h1
        rw [show set_indentlevel (.str INCREASE_INDENT_SYMBOL) st
            = Except.ok ⟨st.indentlevel + 1, strMul INDENTCHAR (st.indentlevel + 1)⟩
            from rfl] at h
        injection h with h2
        subst h2
        rfl
      · by_cases h2 : s = DECREASE_INDENT_SYMBOL
        · subst h2
          rw [show set_indentlevel (.str DECREASE_INDENT_SYMBOL) st
              = Except.ok ⟨max 0 (st.indentlevel - 1), strMul INDENTCHAR (max 0 (st.indentlevel - 1))⟩
              from rfl] at h
          injection h with h3
          subst h3
          rfl
        · have hh : set_indentlevel (.str s) st = Except.error BAD_INDENTLEVEL := by
            show (if s = INCREASE_INDENT_SYMBOL then
                (Except.ok ⟨st.indentlevel + 1, strMul INDENTCHAR (st.indentlevel + 1)⟩
                  : Except String LoggerState)
              else if s = DECREASE_INDENT_SYMBOL then
                Except.ok ⟨max 0 (st.indentlevel - 1), strMul INDENTCHAR (max 0 (st.indentlevel - 1))⟩
              else Except.error BAD_INDENTLEVEL) = Except.error BAD_INDENTLEVEL
            rw [if_neg h1, if_neg h2]
          rw [hh] at h
          exact Except.noConfusion h
    | int n =>
      by_cases h1 : 0 ≤ n
      · rw [show set_indentlevel (.int n) st
            = if 0 ≤ n then (Except.ok ⟨n, strMul INDENTCHAR n⟩ : Except String LoggerState)
              else Except.error BAD_INDENTLEVEL from rfl, if_pos h1] at h
        injection h with h2
        subst h2
        rfl
      · rw [show set_indentlevel (.int n) st
            = if 0 ≤ n then (Except.ok ⟨n, strMul INDENTCHAR n⟩ : Except String LoggerState)
              else Except.error BAD_INDENTLEVEL from rfl, if_neg h1] at h
        exact Except.noConfusion h
  · intro st msg hInv
    unfold makeRecord
    rw [hInv]

/-- C10, witness: the invariant after `set_indent(2)` from the initial state,
and the record built at the initial state. -/
theorem C10_indentation_cache_witness :
    IndentInv (⟨2, [' ', ' ']⟩ : LoggerState)
    ∧ makeRecord initLogger ['a']
        = [nl].intercalate (((['a'] : List Char).splitOn nl).map fun line =>
            rstrip (strMul INDENTCHAR (0 : Int) ++ line)) :=
  ⟨C10_indentation_cache.2.1 (IndentArg.int 2) initLogger ⟨2, [' ', ' ']⟩ rfl,
   C10_indentation_cache.2.2 initLogger ['a'] rfl⟩

/-! ### The OSError normalizer -/

/-- Python exception kinds raised by the primitive operations the module
uses. -/
inductive PyExc where
  | keyError
  | indexError
  | typeError
  deriving Repr, DecidableEq

/-- The attributes of a Python `OSError` object read by the module.
`winerror` is `none` both when the attribute does not exist (non-Windows
platforms, where the source suppresses the `AttributeError`) and when its
value is `None`: both paths leave the source's `exc_winerror` as `None`. -/
structure OSErrorModel where
  typeName : String
  errno : Option Int
  winerror : Option Int
  strerror : Option String
  filename : Option String
  filename2 : Option String
  deriving Repr, DecidableEq

/-- Python truthiness of an optional int (`None` and `0` are falsy). -/
def pyTruthyInt : Option Int → Bool
  | none => false
  | some n => n != 0

/-- Python truthiness of an optional string (`None` and `''` are falsy). -/
def pyTruthyStr : Option String → Bool
  | none => false
  | some s => !s.toList.isEmpty

/-- The `errno.errorcode` table of the Python standard library (POSIX
values), restricted to the codes exercised in this development. -/
def errorcode (n : Int) : Option String :=
  if n = 1 then some "EPERM"
  else if n = 2 then some "ENOENT"
  else if n = 13 then some "EACCES"
  else if n = 17 then some "EEXIST"
  else none

/-- Python `errorcode[k]`: raises `KeyError` when the key is absent (also
when the key is `None`). -/
def dictLookup (k : Option Int) : Except PyExc String :=
  match k with
  | none => .error .keyError
  | some n =>
    match errorcode n with
    | some v => .ok v
    | none => .error .keyError

/-- Python `s[0]` on an optional string: `TypeError` on `None`, `IndexError`
on the empty string. -/
def pySubscriptHead : Option String → Except PyExc Char
  | none => .error .typeError
  | some s =>
    match s.toList with
    | [] => .error .indexError
    | c :: _ => .ok c

/-- Python `s[1:]` on an optional string: `TypeError` on `None`. -/
def pySliceFrom1 : Option String → Except PyExc String
  | none => .error .typeError
  | some s => .ok (String.mk s.toList.tail)

/-- Python `s.rstrip('.')`: drop the trailing run of periods. -/
def rstripDots (s : String) : String :=
  String.mk (s.toList.reverse.dropWhile (· == '.')).reverse

/-- The `with contextlib.suppress(KeyError)` block around
`exc_errno = errorcode[exception.errno]` (`legion.py` lines 292-293): a
`KeyError` leaves `exc_errno` as `None`; any other exception propagates. -/
def suppressKeyError (x : Except PyExc String) : Except PyExc (Option String) :=
  match x with
  | .ok v => .ok (some v)
  | .error .keyError => .ok none
  | .error e2 => .error e2

/-- `_Messages.OSERROR_WINERROR` applied to a native code. -/
def OSERROR_WINERROR (w : Int) : String := "WinError" ++ toString w

/-- `_Messages.OSERROR_ERRORCODES` applied to the two code strings. -/
def OSERROR_ERRORCODES (a b : String) : String := a ++ "/" ++ b

/-- `_Messages.OSERROR_DETAIL_NA`. -/
def OSERROR_DETAIL_NA : String := "N/A"

/-- The tuple returned by `munge_oserror`, field per tuple slot. -/
structure MungeResult where
  excType : String
  excErrorcodes : String
  excMessage : String
  filename : Option String
  filename2 : Option String
  deriving Repr, DecidableEq

/-- Lines 291-293 of `munge_oserror`: `exc_errno` is computed only when
`exception.errno` is truthy, with `KeyError` suppressed. -/
def munge_errno_step (e : OSErrorModel) : Except PyExc (Option String) :=
  if pyTruthyInt e.errno then suppressKeyError (dictLookup e.errno) else pure none

/-- Lines 298-300 of `munge_oserror`: the message is the error string with
its first character uppercased, trailing periods collapsed into exactly one;
an absent or empty error string yields the empty string. -/
def munge_message_step (e : OSErrorModel) : Except PyExc String :=
  if pyTruthyStr e.strerror then do
    let c ← pySubscriptHead e.strerror
    let rest ← pySliceFrom1 e.strerror
    pure (String.mk [c.toUpper] ++ rstripDots rest ++ ".")
  else pure ""

/-- The pure assembly of the `munge_oserror` result (lines 283-302): the
winerror string (lines 288-289), the unified code chain
`exc_errorcodes or exc_errno or exc_winerror or "N/A"` (lines 295-297) and
the verbatim filenames (line 302). -/
def munge_assemble (e : OSErrorModel) (excErrno : Option String) (excMessage : String) :
    MungeResult :=
  let excWinerror : Option String :=
    match e.winerror with
    | some w => if w != 0 then some (OSERROR_WINERROR w) else none
    | none => none
  let excErrorcodes : Option String :=
    match excErrno, excWinerror with
    | some a, some b => some (OSERROR_ERRORCODES a b)
    | _, _ => none
  let excErrorcodes := ((excErrorcodes.or excErrno).or excWinerror).getD OSERROR_DETAIL_NA
  ⟨e.typeName, excErrorcodes, excMessage, e.filename, e.filename2⟩

/-- `munge_oserror` (`legion.py` lines 263-302), with its two fallible steps
sequenced in source order. -/
def munge_oserror (e : OSErrorModel) : Except PyExc MungeResult := do
  let excErrno ← munge_errno_step e
  let excMessage ← munge_message_step e
  return munge_assemble e excErrno excMessage

theorem except_bind_ok {α β ε : Type} (a : α) (f : α → Except ε β) :
    (Except.ok a : Except ε α) >>= f = f a := rfl

theorem munge_errno_step_ok (e : OSErrorModel) :
    ∃ v, munge_errno_step e = Except.ok v := by
  unfold munge_errno_step
  by_cases hb : pyTruthyInt e.errno = true
  · rw [if_pos hb]
    cases he : e.errno with
    | none => exact ⟨none, rfl⟩
    | some n =>
      cases hc : errorcode n with
      | none => exact ⟨none, by simp [dictLookup, suppressKeyError, hc]⟩
      | some v => exact ⟨some v, by simp [dictLookup, suppressKeyError, hc]⟩
  · rw [if_neg hb]
    exact ⟨none, rfl⟩

theorem munge_message_step_ok (e : OSErrorModel) :
    ∃ m, munge_message_step e = Except.ok m
      ∧ ((e.strerror = none ∨ e.strerror = some "") → m = "") := by
  unfold munge_message_step
  cases hs : e.strerror with
  | none => exact ⟨"", rfl, fun _ => rfl⟩
  | some s =>
    cases hl : s.toList with
    | nil =>
      have hl' : s.data = [] := hl
      have hTruthy : pyTruthyStr (some s) = false := by simp [pyTruthyStr, hl']
      refine ⟨"", ?_, fun _ => rfl⟩
      rw [if_neg (by simp [hTruthy])]
      rfl
    | cons c cs =>
      have hl' : s.data = c :: cs := hl
      have hTruthy : pyTruthyStr (some s) = true := by simp [pyTruthyStr, hl']
      refine ⟨String.mk [c.toUpper] ++ rstripDots (String.mk cs) ++ ".", ?_, ?_⟩
      · simp [hTruthy, pySubscriptHead, pySliceFrom1, hl', except_bind_ok]
      · intro hblank
        exfalso
        rcases hblank with h | h
        · exact Option.noConfusion h
        · injection h with h2
          subst h2
          have hnil : String.toList "" = [] := rfl
          rw [hnil] at hl
          exact List.noConfusion hl

/-- C3.  `munge_oserror` never raises: for every `OSError` input, including
inputs whose errno, native code, message string or filenames are absent or
empty, it returns a descriptor; when the error string is absent or empty the
returned message is the empty string. -/
theorem C3_munge_never_raises (e : OSErrorModel) :
    ∃ r, munge_oserror e = Except.ok r
      ∧ ((e.strerror = none ∨ e.strerror = some "") → r.excMessage = "") := by
  obtain ⟨v, hv⟩ := munge_errno_step_ok e
  obtain ⟨m, hm, hblank⟩ := munge_message_step_ok e
  refine ⟨munge_assemble e v m, ?_, fun h => hblank h⟩
  simp [munge_oserror, hv, hm, except_bind_ok]

/-- C3, witness: the all-absent `OSError` normalizes without raising, with an
empty message. -/
theorem C3_munge_never_raises_witness :
    ∃ r, munge_oserror ⟨"OSError", none, none, none, none, none⟩ = Except.ok r
      ∧ r.excMessage = "" := by
  obtain ⟨r, hr, hb⟩ := C3_munge_never_raises ⟨"OSError", none, none, none, none, none⟩
  exact ⟨r, hr, hb (Or.inl rfl)⟩

/-- C6.  `munge_oserror` is a function of its input fields: on an `OSError`
with errno 2 (`ENOENT`), no native code, error string `"no such file"`,
filename `"/tmp/x"` and no second filename, it returns unified code
`"ENOENT"`, message `"No such file."`, the first filename verbatim and `None`
for the second; and with neither errno nor native code set the unified code
is the `"N/A"` sentinel. -/
theorem C6_munge_determinism :
    munge_oserror ⟨"FileNotFoundError", some 2, none, some "no such file", some "/tmp/x", none⟩
      = Except.ok ⟨"FileNotFoundError", "ENOENT", "No such file.", some "/tmp/x", none⟩
    ∧ munge_oserror ⟨"OSError", none, none, some "boom", none, none⟩
      = Except.ok ⟨"OSError", "N/A", "Boom.", none, none⟩ :=
  ⟨rfl, rfl⟩

/-! ### The unhandled-exception hook (OSError branch) -/

/-- One entry of `traceback.extract_tb`, as read by `excepthook`
(`frame.filename`, `frame.lineno`, `frame.name`, `frame.line`). -/
structure Frame where
  filename : String
  lineno : Nat
  name : String
  line : String
  deriving Repr, DecidableEq

/-- `_Messages.UNEXPECTED_OSERROR`. -/
def UNEXPECTED_OSERROR : String := "Unexpected OSError."

/-- `_Messages.OSERROR_DETAILS` (the dedented six-line template) applied to
the six field strings. -/
def OSERROR_DETAILS (a b c d e f : String) : String :=
  "     type = " ++ a ++ "\n    errno = " ++ b ++ "\n winerror = " ++ c
    ++ "\n strerror = " ++ d ++ "\n filename = " ++ e ++ "\nfilename2 = " ++ f

/-- `_Messages.TRACEBACK_FRAME_HEADER` applied to a file name. -/
def TRACEBACK_FRAME_HEADER (fn : String) : String := "▸ " ++ fn ++ "\n"

/-- `_Messages.TRACEBACK_FRAME_LINE` applied to a frame's fields. -/
def TRACEBACK_FRAME_LINE (lineno : Nat) (name line : String) : String :=
  "  " ++ toString lineno ++ ", " ++ name ++ ": " ++ line ++ "\n"

/-- `_Messages.TRACEBACK_HEADER` applied to the formatted traceback. -/
def TRACEBACK_HEADER (t : String) : String := "\n\ntraceback:\n" ++ t

/-- `_Messages.TRACEBACK_TOPLEVEL_FRAME`. -/
def TRACEBACK_TOPLEVEL_FRAME : String := "<module>"

/-- Python `str(x)` of an optional string as used when formatting
`exc_value.strerror`: `None` prints as the text `None`. -/
def pyStrOfOpt : Option String → String
  | none => "None"
  | some s => s

/-- The expression `NA if x is None else x` used for the two filenames. -/
def naIfNone : Option String → String
  | none => OSERROR_DETAIL_NA
  | some s => s

/-- The expression `exc_value.winerror or NA` as formatted into the details
block (`None` and `0` are falsy). -/
def winerrorOrNA : Option Int → String
  | none => OSERROR_DETAIL_NA
  | some w => if w != 0 then toString w else OSERROR_DETAIL_NA

/-- The `with contextlib.suppress(IndexError)` block of `excepthook`
(lines 224-225): only `IndexError` is caught (keeping the previous value);
a `KeyError` from the `errorcode` lookup propagates. -/
def suppressIndexError (dflt : String) (x : Except PyExc String) : Except PyExc String :=
  match x with
  | .ok v => .ok v
  | .error .indexError => .ok dflt
  | .error e2 => .error e2

/-- The traceback accumulation loop of `excepthook` (lines 240-247), carrying
`current_filename`: a frame emits a file header when its filename differs
from the previous frame's, and the toplevel frame name is replaced by the
program name. -/
def buildTracebackGo (programName : String) : Option String → List Frame → String
  | _, [] => ""
  | current, f :: rest =>
    let header := if some f.filename = current then "" else TRACEBACK_FRAME_HEADER f.filename
    let name := if f.name = TRACEBACK_TOPLEVEL_FRAME then programName else f.name
    header ++ TRACEBACK_FRAME_LINE f.lineno name f.line
      ++ buildTracebackGo programName (some f.filename) rest

/-- The full traceback string built by `excepthook` from the extracted
frames, starting with `current_filename = None`. -/
def buildTraceback (programName : String) (frames : List Frame) : String :=
  buildTracebackGo programName none frames

/-- The details string logged by `excepthook` for an `OSError` value
(`legion.py` lines 220-249): the six-field block (lines 221-233), after which
the traceback loop and the `details += TRACEBACK_HEADER...` append (lines
240-248) run unconditionally — they are not restricted to the non-OSError
branch — so a non-empty traceback is appended to the OS-error details too. -/
def excepthook_oserror_details (programName : String) (e : OSErrorModel)
    (frames : List Frame) : Except PyExc String := do
  let errnoMessage ←
    if pyTruthyInt e.errno then suppressIndexError OSERROR_DETAIL_NA (dictLookup e.errno)
    else pure OSERROR_DETAIL_NA
  let details := OSERROR_DETAILS e.typeName errnoMessage (winerrorOrNA e.winerror)
    (pyStrOfOpt e.strerror) (naIfNone e.filename) (naIfNone e.filename2)
  let traceback := buildTraceback programName frames
  return details ++ (if traceback = "" then "" else TRACEBACK_HEADER traceback)

/-- C2 evidence.  For an `OSError` handed to `excepthook` together with a
one-frame traceback, the logged details are the six-field block followed by a
non-empty traceback section, contradicting the claim (and the function's own
docstring) that no traceback is logged for OS errors. -/
theorem C2_oserror_traceback_appended :
    excepthook_oserror_details "prog"
        ⟨"FileNotFoundError", some 2, none, some "no such file", some "/tmp/x", none⟩
        [⟨"prog.py", 10, "main", "do()"⟩]
      = Except.ok (OSERROR_DETAILS "FileNotFoundError" "ENOENT" "N/A" "no such file" "/tmp/x" "N/A"
          ++ TRACEBACK_HEADER (TRACEBACK_FRAME_HEADER "prog.py"
            ++ TRACEBACK_FRAME_LINE 10 "main" "do()"))
    ∧ TRACEBACK_HEADER (TRACEBACK_FRAME_HEADER "prog.py"
        ++ TRACEBACK_FRAME_LINE 10 "main" "do()") ≠ "" :=
  ⟨rfl, by decide⟩

/-! ### The destination router (`_CustomLogger.config`) -/

/-- `logging.NOTSET`. -/
def NOTSET : Nat := 0

/-- `logging.DEBUG`. -/
def DEBUG : Nat := 10

/-- `logging.INFO`. -/
def INFO : Nat := 20

/-- `logging.WARNING`. -/
def WARNING : Nat := 30

/-- `logging.ERROR`. -/
def ERROR : Nat := 40

/-- A configured handler: its dict key, its `level` threshold, and its record
filter (Python handlers drop a record below their level, then apply their
filters). -/
structure Handler where
  name : String
  level : Nat
  filt : Nat → Bool

/-- The `debugfile_handler` entry (lines 455-462): level `NOTSET`, no filter. -/
def debugfile_handler : Handler := ⟨"debugfile_handler", NOTSET, fun _ => true⟩

/-- The `logfile_handler` entry (lines 471-478): level `INFO`, no filter. -/
def logfile_handler : Handler := ⟨"logfile_handler", INFO, fun _ => true⟩

/-- The `stdout_handler` entry (lines 490-496): level `NOTSET` with the
`console_filter` accepting exactly `INFO` records (lines 481-483). -/
def stdout_handler : Handler := ⟨"stdout_handler", NOTSET, fun levelno => levelno == INFO⟩

/-- The `stderr_handler` entry (lines 497-502): level `WARNING`, no filter. -/
def stderr_handler : Handler := ⟨"stderr_handler", WARNING, fun _ => true⟩

/-- The `handlers` dict built by `config` in insertion order (lines 447-502):
a falsy (absent or empty) path contributes no file handler, and `console`
contributes the two stream handlers. -/
def buildHandlers (debugfile logfile : Option String) (console : Bool) : List Handler :=
  (if pyTruthyStr debugfile then [debugfile_handler] else [])
    ++ (if pyTruthyStr logfile then [logfile_handler] else [])
    ++ (if console then [stdout_handler, stderr_handler] else [])

/-- The logger's active sink set. -/
structure RouterState where
  handlers : List Handler

/-- Sink set before any `config` call. -/
def initRouter : RouterState := ⟨[]⟩

/-- `_CustomLogger.config` (lines 402-507): builds a fresh `handlers` dict and
passes it through `dictConfig`, whose configuration of the named logger
assigns exactly the listed handlers (line 506), replacing — not extending —
whatever handlers a previous call had installed (`logging.config` clears a
configured logger's handler list before adding the new ones). -/
def config (debugfile logfile : Option String) (console : Bool) (_st : RouterState) :
    RouterState :=
  ⟨buildHandlers debugfile logfile console⟩

/-- A handler writes a record when the record's level reaches the handler's
threshold and its filters accept it. -/
def handlerEmits (h : Handler) (levelno : Nat) : Bool :=
  decide (h.level ≤ levelno) && h.filt levelno

/-- Number of lines the named sink writes for one record at `levelno`. -/
def emitCount (hs : List Handler) (name : String) (levelno : Nat) : Nat :=
  (hs.filter fun h => h.name == name && handlerEmits h levelno).length

/-- C8.  With only the console sinks configured: a `DEBUG` record reaches
neither stream; an `INFO` record is written exactly once to stdout and never
to stderr; and every record at `WARNING` or above is written exactly once to
stderr and never to stdout. -/
theorem C8_console_routing :
    (emitCount (config none none true initRouter).handlers "stdout_handler" DEBUG = 0
      ∧ emitCount (config none none true initRouter).handlers "stderr_handler" DEBUG = 0)
    ∧ (emitCount (config none none true initRouter).handlers "stdout_handler" INFO = 1
      ∧ emitCount (config none none true initRouter).handlers "stderr_handler" INFO = 0)
    ∧ (∀ levelno : Nat, WARNING ≤ levelno →
        emitCount (config none none true initRouter).handlers "stdout_handler" levelno = 0
        ∧ emitCount (config none none true initRouter).handlers "stderr_handler" levelno = 1) := by
  refine ⟨by decide, by decide, fun levelno hw => ?_⟩
  have h20 : (levelno == INFO) = false := by
    have hne : levelno ≠ INFO := by
      unfold INFO
      unfold WARNING at hw
      omega
    simp [hne]
  have h30 : decide (WARNING ≤ levelno) = true := decide_eq_true hw
  constructor
  · simp [config, buildHandlers, initRouter, emitCount, handlerEmits,
      stdout_handler, stderr_handler, pyTruthyStr, h20, h30]
  · simp [config, buildHandlers, initRouter, emitCount, handlerEmits,
      stdout_handler, stderr_handler, pyTruthyStr, h20, h30]

/-- C8, witness at `ERROR`. -/
theorem C8_console_routing_witness :
    emitCount (config none none true initRouter).handlers "stdout_handler" ERROR = 0
    ∧ emitCount (config none none true initRouter).handlers "stderr_handler" ERROR = 1 :=
  C8_console_routing.2.2 ERROR (by decide)

/-- C9.  Reconfiguration is idempotent: for every argument triple, a second
`config` call with the same arguments leaves the active sink set — and in
particular its size — equal to the sink set after a single call; the fresh
handler dict fully replaces the previous topology. -/
theorem C9_config_idempotent (debugfile logfile : Option String) (console : Bool)
    (st : RouterState) :
    config debugfile logfile console (config debugfile logfile console st)
      = config debugfile logfile console st
    ∧ (config debugfile logfile console (config debugfile logfile console st)).handlers.length
      = (config debugfile logfile console st).handlers.length :=
  ⟨rfl, rfl⟩
